import Mathlib

/-!
Verification development for the `claude-wt` worktree-management tool.

Python strings are modelled as `List Char`; Python regular expressions over
the ASCII patterns used by the tool are modelled as executable boolean
matchers; subprocess calls are modelled through explicit environments
(oracles giving each external command's exit code and output), and the
exception/`SystemExit` control flow is made explicit in the result types.
-/

namespace ClaudeWt

/-- Python strings are modelled as lists of characters. -/
abbrev Str := List Char

/-! ### ASCII character classes

Model of the character classes used by the patterns in
`claude_wt/identifier.py` (`[A-Z]` with `re.IGNORECASE`, `\d`) and of the
ASCII fragment of Python's `str.upper`/`str.lower`. -/

def isAsciiUpper (c : Char) : Bool := decide (65 ≤ c.toNat ∧ c.toNat ≤ 90)

def isAsciiLower (c : Char) : Bool := decide (97 ≤ c.toNat ∧ c.toNat ≤ 122)

/-- A letter as matched by `[A-Z]` under `re.IGNORECASE`. -/
def isLetterCI (c : Char) : Bool := isAsciiUpper c || isAsciiLower c

/-- A digit as matched by `\d`. -/
def isDigitCh (c : Char) : Bool := decide (48 ≤ c.toNat ∧ c.toNat ≤ 57)

/-- ASCII fragment of Python `str.upper` applied to one character. -/
def upChar (c : Char) : Char :=
  if isAsciiLower c then Char.ofNat (c.toNat - 32) else c

/-- ASCII fragment of Python `str.lower` applied to one character. -/
def lowChar (c : Char) : Char :=
  if isAsciiUpper c then Char.ofNat (c.toNat + 32) else c

/-- Python `s.upper()`. -/
def pyUpper (s : Str) : Str := s.map upChar

/-- Python `s.lower()`. -/
def pyLower (s : Str) : Str := s.map lowChar

/-- `strStarts pat s` is Python `s.startswith(pat)`. -/
def strStarts : Str → Str → Bool
  | [], _ => true
  | _ :: _, [] => false
  | p :: ps, c :: cs => p == c && strStarts ps cs

/-- Case-insensitive character comparison, as performed by `re.IGNORECASE`. -/
def ciEq (a b : Char) : Bool := upChar a == upChar b

/-- `ciStarts pat s`: `s` starts with `pat` up to case. -/
def ciStarts : Str → Str → Bool
  | [], _ => true
  | _ :: _, [] => false
  | p :: ps, c :: cs => ciEq p c && ciStarts ps cs

/-- Model of `\d+` anchored on both sides: a non-empty all-digit string. -/
def allDigits1 (s : Str) : Bool := !s.isEmpty && s.all isDigitCh

/-! ### `claude_wt/identifier.py` -/

/-- Model of `identifier.upper().startswith("PR-")` in `is_linear_issue`. -/
def upStartsPR (s : Str) : Bool := strStarts ['P', 'R', '-'] (pyUpper s)

/-- `dashDigits rest` holds when `rest` is a hyphen followed by one or more
digits; this is the `-\d+$` tail of the Linear pattern. -/
def dashDigits : Str → Bool
  | c :: ds => c == '-' && allDigits1 ds
  | [] => false

/-- Model of `re.match(r"^[A-Z]{2,4}-\d+$", s, re.IGNORECASE)`: a run of two
to four letters, a hyphen, then one or more digits, consuming the whole
string.  (The letter run is maximal because `-` is not a letter, so the
greedy `{2,4}` with backtracking is equivalent to checking the leading
letter run.) -/
def matchesLinearPattern (s : Str) : Bool :=
  decide (2 ≤ (s.takeWhile isLetterCI).length) &&
    decide ((s.takeWhile isLetterCI).length ≤ 4) &&
    dashDigits (s.dropWhile isLetterCI)

/-- `is_linear_issue` from `claude_wt/identifier.py`: rejects anything whose
uppercased form starts with `PR-`, otherwise matches the Linear pattern. -/
def is_linear_issue (s : Str) : Bool := !upStartsPR s && matchesLinearPattern s

/-- The `PR-\d+|pr-\d+` alternatives of the `is_pr_number` pattern (both are
the same language under `re.IGNORECASE`). -/
def prDashDigits : Str → Bool
  | a :: b :: c :: ds => ciEq a 'P' && ciEq b 'R' && c == '-' && allDigits1 ds
  | _ => false

/-- The literal `/pull/` of the GitHub-URL alternative. -/
def pullMark : Str := ['/', 'p', 'u', 'l', 'l', '/']

/-- The literal `https://github.com/` of the GitHub-URL alternative. -/
def ghMark : Str :=
  ['h', 't', 't', 'p', 's', ':', '/', '/', 'g', 'i', 't', 'h', 'u', 'b',
   '.', 'c', 'o', 'm', '/']

/-- Model of `.*/pull/\d+$` (case-insensitively) on the remainder of the
URL: skip any characters other than a newline (`.` does not match `\n`),
then `/pull/` followed by digits up to the end of the string. -/
def pullTailMatch : Str → Bool
  | [] => false
  | c :: cs =>
      (ciStarts pullMark (c :: cs) && allDigits1 ((c :: cs).drop 6)) ||
        (!(c == '\n') && pullTailMatch cs)

/-- The `https://github\.com/.*/pull/\d+` alternative of `is_pr_number`. -/
def ghPullMatch (s : Str) : Bool := ciStarts ghMark s && pullTailMatch (s.drop 19)

/-- `is_pr_number` from `claude_wt/identifier.py`: model of
`re.match(r"^(\d+|PR-\d+|pr-\d+|https://github\.com/.*/pull/\d+)$", s,
re.IGNORECASE)`. -/
def is_pr_number (s : Str) : Bool := allDigits1 s || prDashDigits s || ghPullMatch s

/-- `extract_pr_number` from `claude_wt/identifier.py`: model of
`re.search(r"(\d+)", s)` returning the matched group (the first maximal
digit run), or the empty string when there is no digit. -/
def extract_pr_number (s : Str) : Str :=
  (s.dropWhile (fun c => !isDigitCh c)).takeWhile isDigitCh

/-- The character map of Python `s.replace("/", "-")`. -/
def replSlash (c : Char) : Char := if c == '/' then '-' else c

/-- `normalize_linear_id` from `claude_wt/identifier.py`:
`issue_id.lower().replace("/", "-")`. -/
def normalize_linear_id (s : Str) : Str := (pyLower s).map replSlash

/-- `detect_identifier_type` from `claude_wt/identifier.py`. -/
def detect_identifier_type (s : Str) : Str :=
  if is_linear_issue s then ['l', 'i', 'n', 'e', 'a', 'r']
  else if is_pr_number s then ['p', 'r']
  else ['c', 'u', 's', 't', 'o', 'm']

/-! ### `claude_wt/session.py` -/

/-- `generate_session_name` from `claude_wt/session.py`:
`f"{repo_name}-{identifier.replace('/', '-')}"`. -/
def generate_session_name (repoName ident : Str) : Str :=
  repoName ++ '-' :: ident.map replSlash

/-! ### Declarative (specification-side) pattern predicates

These follow the wording of the specification and are compared with the
executable matchers translated from the source. -/

/-- Declarative reading of "`s` matches `^[A-Z]{2,4}-\d+$` case-insensitively":
two to four letters, a hyphen, then one or more digits. -/
def LinearSpec (s : Str) : Prop :=
  ∃ ls ds, s = ls ++ '-' :: ds ∧ 2 ≤ ls.length ∧ ls.length ≤ 4 ∧
    (∀ c ∈ ls, isLetterCI c = true) ∧ ds ≠ [] ∧ (∀ c ∈ ds, isDigitCh c = true)

/-- Declarative reading of "`s` starts with `PR-` case-insensitively". -/
def StartsPRSpec (s : Str) : Prop :=
  ∃ a b r, s = a :: b :: '-' :: r ∧ upChar a = 'P' ∧ upChar b = 'R'

/-! ### Python string helpers used by the CLI code -/

/-- Whitespace characters stripped by Python `str.strip()` / split by
`str.split()` (ASCII fragment: space, tab, newline, vertical tab, form
feed, carriage return). -/
def isWS (c : Char) : Bool :=
  decide (c = ' ' ∨ c = '\t' ∨ c = '\n' ∨ c.toNat = 11 ∨ c.toNat = 12 ∨ c = '\r')

/-- Python `s.strip()`. -/
def pyStrip (s : Str) : Str :=
  ((s.dropWhile isWS).reverse.dropWhile isWS).reverse

/-- Worker for `pySplit`; `cur` is the current word, reversed. -/
def pySplitAux : Str → Str → List Str
  | [], cur => if cur.isEmpty then [] else [cur.reverse]
  | c :: cs, cur =>
      if isWS c then
        (if cur.isEmpty then pySplitAux cs [] else cur.reverse :: pySplitAux cs [])
      else pySplitAux cs (c :: cur)

/-- Python `s.split()` with no argument: the maximal non-empty runs of
non-whitespace characters. -/
def pySplit (s : Str) : List Str := pySplitAux s []

/-! ### `claude_wt/repository.py` -/

/-- Python truthiness of an optional string argument (`None` and `""` are
falsy). -/
def optTruthy : Option Str → Bool
  | none => false
  | some s => !s.isEmpty

/-- A Python `dict[str, str]`, modelled as an association list with unique
keys (lookup returns the first binding). -/
abbrev Uda := List (Str × Str)

/-- Python `d.get(k)`. -/
def udaGet (d : Uda) (k : Str) : Option Str := (d.find? (fun p => p.1 == k)).map (·.2)

/-- Python truthiness of the optional `task_uda` dict (`None` and `{}` are
falsy). -/
def dictTruthy : Option Uda → Bool
  | none => false
  | some d => !d.isEmpty

/-- The `"repo_path"` key. -/
def repoPathKey : Str := ['r', 'e', 'p', 'o', '_', 'p', 'a', 't', 'h']

/-- The `"repo"` key. -/
def repoKey : Str := ['r', 'e', 'p', 'o']

/-- Environment for `resolve_repo_path`: the behaviour of
`Path(...).resolve()` (pure path algebra, no existence check) and of
`git rev-parse --show-toplevel` run in the current directory (`some stdout`
on success, `none` when the command fails, with `gitErr` the exception
text). -/
structure ResolveEnv where
  resolvePath : Str → Str
  gitTop : Option Str
  gitErr : Str

/-- The error message raised for a short `repo` name, from
`claude_wt/repository.py`. -/
def shortNameMsg (nm : Str) : Str :=
  ("Cannot resolve short name '").toList ++ nm ++
    ("'. Please set 'repo_path' UDA field with full path. Example: task ").toList ++
    nm ++ (" modify repo_path:/full/path/to/").toList ++ nm

/-- The error message raised when the repository cannot be determined from
the current directory, from `claude_wt/repository.py`. -/
def cannotDetermineMsg (e : Str) : Str :=
  ("Cannot determine repository path. You must either:\n1. Run from within a git repository, OR\n2. Provide --repo-path flag, OR\n3. Set 'repo_path' UDA field in taskwarrior\nError: ").toList ++ e

/-- `_resolve_from_current_directory` from `claude_wt/repository.py`:
`Path(result.stdout.strip())` on success, a `RepositoryResolutionError`
otherwise. -/
def resolveFromCurrentDirectory (env : ResolveEnv) : Except Str Str :=
  match env.gitTop with
  | some out => .ok (pyStrip out)
  | none => .error (cannotDetermineMsg env.gitErr)

/-- `resolve_repo_path` from `claude_wt/repository.py`.  An `.error` value
is a raised `RepositoryResolutionError` carrying its message. -/
def resolve_repo_path (env : ResolveEnv) (explicitPath : Option Str)
    (taskUda : Option Uda) : Except Str Str :=
  if optTruthy explicitPath then
    .ok (env.resolvePath (explicitPath.getD []))
  else if dictTruthy taskUda && optTruthy (udaGet (taskUda.getD []) repoPathKey) then
    .ok (env.resolvePath ((udaGet (taskUda.getD []) repoPathKey).getD []))
  else if dictTruthy taskUda && optTruthy (udaGet (taskUda.getD []) repoKey) then
    .error (shortNameMsg ((udaGet (taskUda.getD []) repoKey).getD []))
  else resolveFromCurrentDirectory env

/-! ### The `git worktree list --porcelain` parser

The same parsing loop appears in `claude_wt/cli.py` (`list` and `clean`)
and in `claude_wt/worktree.py` (`clean_worktrees`). -/

/-- The parser's record under construction: a Python dict with keys
`"path"` and `"branch"`. -/
structure WTRec where
  path : Option Str
  branch : Option Str
deriving DecidableEq

/-- Python truthiness of the `current_wt` dict (empty dict is falsy). -/
def wtTruthy (w : WTRec) : Bool := w.path.isSome || w.branch.isSome

/-- The literal `"worktree "`. -/
def wtLineMark : Str := ['w', 'o', 'r', 'k', 't', 'r', 'e', 'e', ' ']

/-- The literal `"branch "`. -/
def brLineMark : Str := ['b', 'r', 'a', 'n', 'c', 'h', ' ']

/-- The parsing loop over the lines of `git worktree list --porcelain`
output, followed by the final `if current_wt: worktrees.append(current_wt)`
flush. -/
def parseLines : List Str → List WTRec → WTRec → List WTRec
  | [], acc, cur => if wtTruthy cur then acc ++ [cur] else acc
  | l :: ls, acc, cur =>
      if strStarts wtLineMark l then
        parseLines ls (if wtTruthy cur then acc ++ [cur] else acc)
          ⟨some (l.drop 9), none⟩
      else if strStarts brLineMark l then
        parseLines ls acc ⟨cur.path, some (l.drop 7)⟩
      else parseLines ls acc cur

/-- The whole parser: start with an empty accumulator and an empty
`current_wt` dict. -/
def parseWorktrees (lines : List Str) : List WTRec := parseLines lines [] ⟨none, none⟩

/-- Specification-side description of one porcelain record: a
`worktree <path>` line optionally followed by a `branch <ref>` line. -/
structure PorcelainRec where
  path : Str
  branch : Option Str

/-- The lines of one porcelain record. -/
def recLines (r : PorcelainRec) : List Str :=
  (wtLineMark ++ r.path) ::
    (match r.branch with
     | some b => [brLineMark ++ b]
     | none => [])

/-- The `{path, branch}` entry a record should parse to. -/
def recWT (r : PorcelainRec) : WTRec := ⟨some r.path, r.branch⟩

/-! ### Bulk clean (`clean --all`) -/

/-- Python `wt.get("path", "")`. -/
def wtGetPath (w : WTRec) : Str := w.path.getD []

/-- Python `wt.get("branch", "")`. -/
def wtGetBranch (w : WTRec) : Str := w.branch.getD []

/-- The literal `"claude-wt-"`. -/
def claudeWtMark : Str := ['c', 'l', 'a', 'u', 'd', 'e', '-', 'w', 't', '-']

/-- The literal `"-worktrees/claude-wt-"`. -/
def wtPathMark : Str :=
  ['-', 'w', 'o', 'r', 'k', 't', 'r', 'e', 'e', 's', '/',
   'c', 'l', 'a', 'u', 'd', 'e', '-', 'w', 't', '-']

/-- Python `pat in s` (substring containment). -/
def containsSub (pat : Str) : Str → Bool
  | [] => strStarts pat []
  | c :: cs => strStarts pat (c :: cs) || containsSub pat cs

/-- `is_claude_wt_worktree` from `claude_wt/core.py` (the same condition is
inlined in `claude_wt/cli.py`'s `clean`): the branch starts with
`claude-wt-` or the path contains `-worktrees/claude-wt-`. -/
def is_claude_wt_worktree (w : WTRec) : Bool :=
  strStarts claudeWtMark (wtGetBranch w) || containsSub wtPathMark (wtGetPath w)

/-- The Python exception raised by `subprocess.run(..., check=True)` on a
non-zero exit code. -/
inductive PyErr
  | calledProcessError
deriving DecidableEq

/-- `subprocess.run(cmd, check=True)`: raises `CalledProcessError` when the
command exits non-zero. -/
def runChecked (exitCode : Nat) : Except PyErr Unit :=
  if exitCode = 0 then .ok () else .error .calledProcessError

/-- One iteration of the `clean --all` worktree loop: skip non-claude-wt
worktrees; otherwise run `git worktree remove --force` under
`try/except CalledProcessError`, reporting success or failure (the failed
branch also best-effort prunes, which has no observable effect here) and
never letting the exception escape. -/
def cleanWtIter (removeExit : Str → Nat) (w : WTRec) :
    Except PyErr (List (Str × Bool)) :=
  if is_claude_wt_worktree w then
    Except.tryCatch
      (do runChecked (removeExit (wtGetPath w)); pure [(wtGetPath w, true)])
      (fun _ => pure [(wtGetPath w, false)])
  else pure []

/-- The `for wt in worktrees:` loop of `clean --all`, collecting the
reported per-worktree outcomes. -/
def cleanWtPhase (removeExit : Str → Nat) : List WTRec → Except PyErr (List (Str × Bool))
  | [] => pure []
  | w :: ws => do
      let r ← cleanWtIter removeExit w
      let rs ← cleanWtPhase removeExit ws
      pure (r ++ rs)

/-- One iteration of the `clean --all` branch-deletion loop: `if branch:`
guard, then `git branch -D` under `try/except CalledProcessError`. -/
def branchIter (deleteExit : Str → Nat) (b : Str) :
    Except PyErr (List (Str × Bool)) :=
  if b.isEmpty then pure []
  else
    Except.tryCatch
      (do runChecked (deleteExit b); pure [(b, true)])
      (fun _ => pure [(b, false)])

/-- The `for branch in branches:` loop of `clean --all`. -/
def branchPhase (deleteExit : Str → Nat) : List Str → Except PyErr (List (Str × Bool))
  | [] => pure []
  | b :: bs => do
      let r ← branchIter deleteExit b
      let rs ← branchPhase deleteExit bs
      pure (r ++ rs)

/-- Environment for `clean --all`: the porcelain output lines, the exit
code of `git worktree remove --force` per path, the parsed
`git branch --list claude-wt-*` names, and the exit code of
`git branch -D` per branch. -/
structure CleanAllEnv where
  wtLines : List Str
  removeExit : Str → Nat
  branchList : List Str
  deleteExit : Str → Nat

/-- The `clean --all` path of `clean` (`claude_wt/cli.py`) /
`clean_worktrees` (`claude_wt/worktree.py`): parse the worktree list,
best-effort remove every claude-wt worktree, then best-effort delete every
`claude-wt-*` branch.  The result pairs each attempted item with whether
its removal succeeded. -/
def clean_all (env : CleanAllEnv) :
    Except PyErr (List (Str × Bool) × List (Str × Bool)) := do
  let wtRes ← cleanWtPhase env.removeExit (parseWorktrees env.wtLines)
  let brRes ← branchPhase env.deleteExit env.branchList
  pure (wtRes, brRes)

/-! ### The interactive picker and the `switch`/`clean` commands -/

/-- The value parsed back from the fzf selection in
`select_worktree_fzf`. -/
structure FzfSel where
  path : Str
  repo : Str
  session : Str
deriving DecidableEq

/-- `select_worktree_fzf` from `claude_wt/worktree.py`, as a function of the
fzf subprocess result (`.error` is a non-zero fzf exit raised as
`CalledProcessError` by `check=True`): a cancelled picker returns `None`;
otherwise the selected line is whitespace-split and needs at least four
columns. -/
def select_worktree_fzf (fzfRes : Except PyErr Str) : Option FzfSel :=
  match fzfRes with
  | .error _ => none
  | .ok out =>
      let parts := pySplit (pyStrip out)
      if parts.length < 4 then none
      else some ⟨pyStrip (parts.getD 3 []), pyStrip (parts.getD 1 []),
                 pyStrip (parts.getD 2 [])⟩

/-- A git mutation performed by a command. -/
inductive GitMut
  | createBranch (branch : Str)
  | addWorktree (path : Str)
  | removeWorktree (path : Str)
  | deleteBranch (branch : Str)
deriving DecidableEq

/-- How a command invocation ended. -/
inductive CmdOutcome
  | exited (code : Nat)
  | returned
  | raised
deriving DecidableEq

/-- The observable effect of a command: its outcome, the git mutations it
performed, and whether it created/switched to a tmux session. -/
structure CmdEffect where
  outcome : CmdOutcome
  gitMuts : List GitMut
  tmuxSession : Bool
deriving DecidableEq

/-- `switch_worktree` from `claude_wt/worktree.py`: empty worktree list or a
cancelled/invalid selection exits with `SystemExit(1)`; a missing path
exits with `SystemExit(1)`; otherwise a tmux session is created/switched to
(no git mutation either way). -/
def switch_worktree (allWts : List FzfSel) (fzfRes : Except PyErr Str)
    (pathExists : Str → Bool) : CmdEffect :=
  if allWts.isEmpty then ⟨.exited 1, [], false⟩
  else
    match select_worktree_fzf fzfRes with
    | none => ⟨.exited 1, [], false⟩
    | some sel =>
        if !pathExists sel.path then ⟨.exited 1, [], false⟩
        else ⟨.returned, [], true⟩

/-- The interactive (no branch name, no `--all`) path of `clean_worktrees`
from `claude_wt/worktree.py`: after a confirmed selection the worktree is
removed (`check=True`, so a non-zero exit raises out of the function) and
the branch `claude-wt-{session}` is deleted under `try/except` (a failure
is reported but swallowed).  Recorded git mutations are the ones that
succeeded. -/
def clean_worktrees_interactive (allWts : List FzfSel) (fzfRes : Except PyErr Str)
    (pathExists : Str → Bool) (removeExit deleteExit : Str → Nat) : CmdEffect :=
  if allWts.isEmpty then ⟨.exited 1, [], false⟩
  else
    match select_worktree_fzf fzfRes with
    | none => ⟨.exited 1, [], false⟩
    | some sel =>
        if !pathExists sel.path then ⟨.exited 1, [], false⟩
        else if removeExit sel.path ≠ 0 then ⟨.raised, [], false⟩
        else if deleteExit (claudeWtMark ++ sel.session) ≠ 0 then
          ⟨.returned, [.removeWorktree sel.path], false⟩
        else
          ⟨.returned, [.removeWorktree sel.path,
                       .deleteBranch (claudeWtMark ++ sel.session)], false⟩

/-! ### The `new` command (`claude_wt/cli.py`) -/

/-- One event on standard output: the bare worktree path emitted by
`print(str(wt_path))`, or any Rich console output (panels, status
lines). -/
inductive OutEvent
  | pathLine (p : Str)
  | rich
deriving DecidableEq

/-- `Path(p).name` for a path string: its last `/`-separated component. -/
def pathName (p : Str) : Str :=
  (p.reverse.takeWhile (fun c => !(c == '/'))).reverse

/-- `Path(p).parent` for a path string: everything before the last `/`. -/
def pathParent (p : Str) : Str :=
  ((p.reverse.dropWhile (fun c => !(c == '/'))).drop 1).reverse

/-- `get_worktree_base` from `claude_wt/cli.py`:
`repo_root.parent / f"{repo_name}-worktrees"`. -/
def get_worktree_base (repoRoot : Str) : Str :=
  pathParent repoRoot ++ '/' ::
    (pathName repoRoot ++ ['-', 'w', 'o', 'r', 'k', 't', 'r', 'e', 'e', 's'])

/-- Environment for the `new` command: the resolved repository root, the
result of the `.gitignore` check, the current branch, the timestamp used
for unnamed sessions, and oracles for `git show-ref` (branch existence),
`wt_path.exists()`, and the `TMUX` environment variable. -/
structure NewEnv where
  repoRoot : Str
  gitignoreOk : Bool
  currentBranch : Str
  timestamp : Str
  branchExists : Str → Bool
  wtPathExists : Str → Bool
  inTmux : Bool

/-- The observable effect of the `new` command: outcome, everything written
to stdout, git mutations, and whether a tmux session was created/switched
to and Claude launched. -/
structure NewEffect where
  outcome : CmdOutcome
  stdout : List OutEvent
  gitMuts : List GitMut
  tmuxSession : Bool
  claudeLaunched : Bool
deriving DecidableEq

/-- The worktree path the `new` command builds:
`get_worktree_base(repo_root) / f"claude-wt-{suffix}"` with
`suffix = name or timestamp`. -/
def newWtPath (env : NewEnv) (name : Str) : Str :=
  get_worktree_base env.repoRoot ++ '/' ::
    (claudeWtMark ++ (if name.isEmpty then env.timestamp else name))

/-- The `new` command from `claude_wt/cli.py`, with subprocess successes
assumed for the git plumbing calls (fetch/switch/pull): a failed
`.gitignore` check prints a panel and exits 1; otherwise the branch and
worktree are created if missing and the context file is written; with
`--print-path` the bare path is printed and the function returns before any
panel or tmux work; otherwise a panel is printed and, inside tmux, a
session is created and Claude launched into it.  (The `query`, `branch` and
`no_pull` parameters only affect panel text and git plumbing calls, none of
which are observable in `NewEffect`, so they are omitted.) -/
def new_cmd (env : NewEnv) (name : Str) (printPath : Bool) : NewEffect :=
  if !env.gitignoreOk then ⟨.exited 1, [.rich], [], false, false⟩
  else
    let branchName := claudeWtMark ++ (if name.isEmpty then env.timestamp else name)
    let branchMuts : List GitMut :=
      if env.branchExists branchName then [] else [.createBranch branchName]
    let wtPath := newWtPath env name
    let wtMuts : List GitMut :=
      if env.wtPathExists wtPath then [] else [.addWorktree wtPath]
    if printPath then
      ⟨.returned, [.pathLine wtPath], branchMuts ++ wtMuts, false, false⟩
    else if env.inTmux then
      ⟨.returned, [.rich, .rich], branchMuts ++ wtMuts, true, true⟩
    else
      ⟨.returned, [.rich, .rich], branchMuts ++ wtMuts, false, true⟩

/-- Concrete scenario for the bulk-clean partial-failure property: three
claude-wt worktrees, the second of which fails to remove (its
`git worktree remove` exits 1), and no stale branches. -/
def scenarioCleanEnv : CleanAllEnv where
  wtLines :=
    (([⟨("/w/a").toList, some (("claude-wt-a").toList)⟩,
       ⟨("/w/b").toList, some (("claude-wt-b").toList)⟩,
       ⟨("/w/c").toList, some (("claude-wt-c").toList)⟩] :
      List PorcelainRec).map recLines).flatten
  removeExit := fun p => if p == ("/w/b").toList then 1 else 0
  branchList := []
  deleteExit := fun _ => 0

/-! ## Helper lemmas on characters -/

theorem char_toNat_ofNat {n : Nat} (h : n < 55296) : (Char.ofNat n).toNat = n := by
  unfold Char.ofNat
  rw [dif_pos (Or.inl h)]
  rfl

theorem isAsciiLower_range {c : Char} (h : isAsciiLower c = true) :
    97 ≤ c.toNat ∧ c.toNat ≤ 122 := by
  simpa [isAsciiLower] using h

theorem isAsciiUpper_range {c : Char} (h : isAsciiUpper c = true) :
    65 ≤ c.toNat ∧ c.toNat ≤ 90 := by
  simpa [isAsciiUpper] using h

theorem toNat_upChar_lower (c : Char) (h : isAsciiLower c = true) :
    (upChar c).toNat = c.toNat - 32 := by
  simp only [upChar, h, if_true]
  exact char_toNat_ofNat (by have := isAsciiLower_range h; omega)

theorem toNat_lowChar_upper (c : Char) (h : isAsciiUpper c = true) :
    (lowChar c).toNat = c.toNat + 32 := by
  simp only [lowChar, h, if_true]
  exact char_toNat_ofNat (by have := isAsciiUpper_range h; omega)

/-- If `upChar c` is not an uppercase letter, `c` was left unchanged. -/
theorem upChar_eq_nonupper {c u : Char} (hu : u.toNat < 65 ∨ 90 < u.toNat)
    (h : upChar c = u) : c = u := by
  by_cases hl : isAsciiLower c = true
  · exfalso
    have := congrArg Char.toNat h
    rw [toNat_upChar_lower c hl] at this
    have hr := isAsciiLower_range hl
    omega
  · simpa [upChar, hl] using h

/-- A character whose uppercased form is an uppercase letter is a letter. -/
theorem isLetterCI_of_upChar {c u : Char} (hu : isAsciiUpper u = true)
    (h : upChar c = u) : isLetterCI c = true := by
  by_cases hl : isAsciiLower c = true
  · simp [isLetterCI, hl]
  · have hc : c = u := by simpa [upChar, hl] using h
    simp [isLetterCI, hc, hu]

theorem lowChar_lowChar (c : Char) : lowChar (lowChar c) = lowChar c := by
  by_cases h : isAsciiUpper c = true
  · have ht := toNat_lowChar_upper c h
    have hr := isAsciiUpper_range h
    have hnu : isAsciiUpper (lowChar c) = false := by
      simp only [isAsciiUpper, ht, decide_eq_false_iff_not]
      omega
    have hstep : lowChar (lowChar c) =
        if isAsciiUpper (lowChar c) = true then Char.ofNat ((lowChar c).toNat + 32)
        else lowChar c := rfl
    rw [hstep, hnu]
    simp
  · simp only [Bool.not_eq_true] at h
    simp [lowChar, h]

theorem digit_not_letter {c : Char} (h : isDigitCh c = true) : isLetterCI c = false := by
  have hr : 48 ≤ c.toNat ∧ c.toNat ≤ 57 := by simpa [isDigitCh] using h
  simp only [isLetterCI, isAsciiUpper, isAsciiLower, Bool.or_eq_false_iff,
    decide_eq_false_iff_not]
  omega

/-! ## Helper lemmas on lists and string operations -/

theorem takeWhile_all_append {α : Type} (p : α → Bool) :
    ∀ (l1 l2 : List α), (∀ x ∈ l1, p x = true) → (∀ x ∈ l2.take 1, p x = false) →
      (l1 ++ l2).takeWhile p = l1 := by
  intro l1
  induction l1 with
  | nil =>
      intro l2 _ h2
      cases l2 with
      | nil => rfl
      | cons c t => simp [List.takeWhile_cons, h2 c (by simp)]
  | cons a l1 ih =>
      intro l2 h1 h2
      simp only [List.cons_append, List.takeWhile_cons, h1 a (by simp), if_true]
      rw [ih l2 (fun x hx => h1 x (by simp [hx])) h2]

theorem dropWhile_all_append {α : Type} (p : α → Bool) :
    ∀ (l1 l2 : List α), (∀ x ∈ l1, p x = true) → (∀ x ∈ l2.take 1, p x = false) →
      (l1 ++ l2).dropWhile p = l2 := by
  intro l1
  induction l1 with
  | nil =>
      intro l2 _ h2
      cases l2 with
      | nil => rfl
      | cons c t => simp [List.dropWhile_cons, h2 c (by simp)]
  | cons a l1 ih =>
      intro l2 h1 h2
      simp only [List.cons_append, List.dropWhile_cons, h1 a (by simp), if_true]
      exact ih l2 (fun x hx => h1 x (by simp [hx])) h2

theorem strStarts_append_self : ∀ (p s : Str), strStarts p (p ++ s) = true := by
  intro p
  induction p with
  | nil => intro s; rfl
  | cons c ps ih => intro s; simp [strStarts, ih]

theorem ciStarts_append_self : ∀ (p s : Str), ciStarts p (p ++ s) = true := by
  intro p
  induction p with
  | nil => intro s; rfl
  | cons c ps ih => intro s; simp [ciStarts, ciEq, ih]

/-! ## The Linear-issue pattern matcher agrees with its declarative reading -/

theorem matchesLinearPattern_iff (s : Str) :
    matchesLinearPattern s = true ↔ LinearSpec s := by
  constructor
  · intro h
    unfold matchesLinearPattern at h
    rw [Bool.and_eq_true, Bool.and_eq_true] at h
    obtain ⟨⟨h2, h4⟩, hd⟩ := h
    rcases hD : s.dropWhile isLetterCI with _ | ⟨c, ds⟩
    · rw [hD] at hd; exact absurd hd (by simp [dashDigits])
    · rw [hD] at hd
      simp only [dashDigits, Bool.and_eq_true, beq_iff_eq] at hd
      obtain ⟨hc, hds⟩ := hd
      subst hc
      have hsplit : s = s.takeWhile isLetterCI ++ '-' :: ds := by
        conv_lhs => rw [← List.takeWhile_append_dropWhile isLetterCI s]
        rw [hD]
      simp only [allDigits1, Bool.and_eq_true, Bool.not_eq_true'] at hds
      refine ⟨s.takeWhile isLetterCI, ds, hsplit, by simpa using h2, by simpa using h4,
        fun c hc => List.mem_takeWhile_imp hc, ?_, fun c hc => List.all_eq_true.mp hds.2 c hc⟩
      intro hnil
      rw [hnil] at hds
      simp at hds
  · rintro ⟨ls, ds, rfl, h2, h4, hls, hne, hds⟩
    have hhead : ∀ x ∈ ('-' :: ds).take 1, isLetterCI x = false := by
      intro x hx
      simp only [List.take_succ_cons, List.take_zero, List.mem_singleton] at hx
      subst hx
      decide
    have ht := takeWhile_all_append isLetterCI ls ('-' :: ds) hls hhead
    have hd := dropWhile_all_append isLetterCI ls ('-' :: ds) hls hhead
    unfold matchesLinearPattern
    rw [ht, hd]
    simp [dashDigits, allDigits1, List.all_eq_true, h2, h4, hne]
    exact hds

/-! ## The `PR-` prefix test agrees with its declarative reading -/

theorem upStartsPR_iff (s : Str) : upStartsPR s = true ↔ StartsPRSpec s := by
  constructor
  · intro h
    rcases s with _ | ⟨a, _ | ⟨b, _ | ⟨c, r⟩⟩⟩
    · simp [upStartsPR, pyUpper, strStarts] at h
    · simp [upStartsPR, pyUpper, strStarts] at h
    · simp [upStartsPR, pyUpper, strStarts] at h
    · simp only [upStartsPR, pyUpper, List.map_cons, strStarts, Bool.and_eq_true,
        beq_iff_eq] at h
      obtain ⟨hP, hR, hD, -⟩ := h
      have hc : c = '-' := upChar_eq_nonupper (by left; decide) hD.symm
      exact ⟨a, b, r, by rw [hc], hP.symm, hR.symm⟩
  · rintro ⟨a, b, r, rfl, hP, hR⟩
    have hdash : upChar '-' = '-' := by decide
    simp [upStartsPR, pyUpper, strStarts, hP, hR, hdash]

/-- C2: every string matching `^[A-Z]{2,4}-\d+$` case-insensitively that
does not start with `PR-` (case-insensitively) is accepted by
`is_linear_issue`; every string not matching the pattern is rejected; and
`"PR-123"` in particular is rejected. -/
theorem is_linear_issue_spec :
    (∀ s : Str, LinearSpec s → ¬ StartsPRSpec s → is_linear_issue s = true) ∧
    (∀ s : Str, ¬ LinearSpec s → is_linear_issue s = false) ∧
    is_linear_issue (("PR-123").toList) = false := by
  refine ⟨?_, ?_, by decide⟩
  · intro s hlin hpr
    have hm : matchesLinearPattern s = true := (matchesLinearPattern_iff s).mpr hlin
    have hps : upStartsPR s = false := by
      by_contra hx
      exact hpr ((upStartsPR_iff s).mp (by revert hx; cases upStartsPR s <;> simp))
    simp [is_linear_issue, hps, hm]
  · intro s hlin
    have hm : matchesLinearPattern s = false := by
      by_contra hx
      exact hlin ((matchesLinearPattern_iff s).mp
        (by revert hx; cases matchesLinearPattern s <;> simp))
    simp [is_linear_issue, hm]

/-! ## PR-number recognition and extraction -/

theorem allDigits1_of {s : Str} (hne : s ≠ []) (h : ∀ c ∈ s, isDigitCh c = true) :
    allDigits1 s = true := by
  simp [allDigits1, List.all_eq_true, hne]
  exact h

theorem pullTailMatch_append (mid ds : Str) (hm : ∀ c ∈ mid, ¬ c = '\n')
    (hds : allDigits1 ds = true) : pullTailMatch (mid ++ (pullMark ++ ds)) = true := by
  induction mid with
  | nil =>
      simp only [List.nil_append, pullMark, List.cons_append, List.nil_append]
      rw [pullTailMatch, Bool.or_eq_true]
      left
      rw [Bool.and_eq_true]
      exact ⟨ciStarts_append_self pullMark ds, hds⟩
  | cons c cs ih =>
      simp only [List.cons_append]
      rw [pullTailMatch, Bool.or_eq_true]
      right
      rw [Bool.and_eq_true]
      refine ⟨by simp [hm c (by simp)], ?_⟩
      exact ih (fun x hx => hm x (by simp [hx]))

theorem ghPullMatch_append (mid ds : Str) (hm : ∀ c ∈ mid, ¬ c = '\n')
    (hds : allDigits1 ds = true) :
    ghPullMatch (ghMark ++ mid ++ (pullMark ++ ds)) = true := by
  unfold ghPullMatch
  rw [List.append_assoc, Bool.and_eq_true]
  constructor
  · exact ciStarts_append_self _ _
  · have hdrop := List.drop_left ghMark (mid ++ (pullMark ++ ds))
    rw [show ghMark.length = 19 from rfl] at hdrop
    rw [hdrop]
    exact pullTailMatch_append mid ds hm hds

theorem extract_first_run (pre run post : Str) (hpre : ∀ c ∈ pre, isDigitCh c = false)
    (hrun : run ≠ []) (hrd : ∀ c ∈ run, isDigitCh c = true)
    (hpost : ∀ c ∈ post.take 1, isDigitCh c = false) :
    extract_pr_number (pre ++ run ++ post) = run := by
  rcases run with _ | ⟨r, run'⟩
  · exact absurd rfl hrun
  · unfold extract_pr_number
    rw [List.append_assoc]
    have hdropped : (pre ++ ((r :: run') ++ post)).dropWhile (fun c => !isDigitCh c)
        = (r :: run') ++ post := by
      apply dropWhile_all_append
      · intro x hx; simp [hpre x hx]
      · intro x hx
        simp only [List.cons_append, List.take_succ_cons, List.take_zero,
          List.mem_singleton] at hx
        rw [hx]
        simp [hrd r (by simp)]
    rw [hdropped]
    exact takeWhile_all_append isDigitCh (r :: run') post hrd hpost

/-- C3: `is_pr_number` accepts every (non-empty) digit-only string, every
`PR-`/`pr-`-prefixed digit string, and every GitHub URL ending in
`/pull/<digits>`; `extract_pr_number` returns the first digit run of its
input (the empty string when there is none), in particular `"123"`,
`"456"`, `"789"` on the three example inputs. -/
theorem is_pr_number_extract_spec :
    (∀ s : Str, s ≠ [] → (∀ c ∈ s, isDigitCh c = true) → is_pr_number s = true) ∧
    (∀ ds : Str, ds ≠ [] → (∀ c ∈ ds, isDigitCh c = true) →
      is_pr_number ('P' :: 'R' :: '-' :: ds) = true ∧
      is_pr_number ('p' :: 'r' :: '-' :: ds) = true) ∧
    (∀ mid ds : Str, (∀ c ∈ mid, ¬ c = '\n') → ds ≠ [] →
      (∀ c ∈ ds, isDigitCh c = true) →
      is_pr_number (ghMark ++ mid ++ (pullMark ++ ds)) = true) ∧
    extract_pr_number (("PR-123").toList) = ("123").toList ∧
    extract_pr_number (("pr-456").toList) = ("456").toList ∧
    extract_pr_number (("https://github.com/o/r/pull/789").toList) = ("789").toList ∧
    (∀ s : Str, (∀ c ∈ s, isDigitCh c = false) → extract_pr_number s = []) ∧
    (∀ pre run post : Str, (∀ c ∈ pre, isDigitCh c = false) → run ≠ [] →
      (∀ c ∈ run, isDigitCh c = true) → (∀ c ∈ post.take 1, isDigitCh c = false) →
      extract_pr_number (pre ++ run ++ post) = run) := by
  refine ⟨?_, ?_, ?_, by decide, by decide, by decide, ?_, extract_first_run⟩
  · intro s hne h
    simp [is_pr_number, allDigits1_of hne h]
  · intro ds hne h
    have hall := allDigits1_of hne h
    constructor
    · simp [is_pr_number, prDashDigits, ciEq, hall]
    · have hp : ciEq 'p' 'P' = true := by decide
      have hr : ciEq 'r' 'R' = true := by decide
      simp [is_pr_number, prDashDigits, hp, hr, hall]
  · intro mid ds hm hne h
    unfold is_pr_number
    rw [Bool.or_eq_true]
    right
    exact ghPullMatch_append mid ds hm (allDigits1_of hne h)
  · intro s h
    unfold extract_pr_number
    have hd : s.dropWhile (fun c => !isDigitCh c) = [] :=
      List.dropWhile_eq_nil_iff.mpr (fun x hx => by simp [h x hx])
    rw [hd]
    rfl

/-- Witness for C3 at concrete inputs. -/
theorem is_pr_number_extract_spec_witness :
    is_pr_number (("42").toList) = true ∧
    is_pr_number ('P' :: 'R' :: '-' :: ("123").toList) = true ∧
    is_pr_number (ghMark ++ ("o/r").toList ++ (pullMark ++ ("789").toList)) = true ∧
    extract_pr_number (['a'] ++ ['1'] ++ ['b', '2']) = ['1'] := by
  refine ⟨?_, ?_, ?_, ?_⟩
  · exact is_pr_number_extract_spec.1 (("42").toList) (by decide) (by decide)
  · exact (is_pr_number_extract_spec.2.1 (("123").toList) (by decide) (by decide)).1
  · exact is_pr_number_extract_spec.2.2.1 (("o/r").toList) (("789").toList)
      (by decide) (by decide) (by decide)
  · exact is_pr_number_extract_spec.2.2.2.2.2.2.2 ['a'] ['1'] ['b', '2']
      (by decide) (by decide) (by decide) (by decide)

/-- Witness for C2 at concrete inputs: `DOC-123` is a Linear issue and
`custom` is not. -/
theorem is_linear_issue_spec_witness :
    is_linear_issue (("DOC-123").toList) = true ∧
    is_linear_issue (("custom").toList) = false := by
  constructor
  · exact is_linear_issue_spec.1 (("DOC-123").toList)
      ((matchesLinearPattern_iff _).mp (by decide))
      (fun hsp => by
        have hx : upStartsPR (("DOC-123").toList) = true := (upStartsPR_iff _).mpr hsp
        exact absurd hx (by decide))
  · exact is_linear_issue_spec.2.1 (("custom").toList)
      (fun hsp => by
        have hx : matchesLinearPattern (("custom").toList) = true :=
          (matchesLinearPattern_iff _).mpr hsp
        exact absurd hx (by decide))

/-! ## Normalization and session naming -/

theorem normChar_idem (c : Char) :
    replSlash (lowChar (replSlash (lowChar c))) = replSlash (lowChar c) := by
  by_cases hd : (lowChar c == '/') = true
  · rw [show replSlash (lowChar c) = '-' from by simp [replSlash, hd]]
    decide
  · rw [show replSlash (lowChar c) = lowChar c from by simp [replSlash, hd]]
    rw [lowChar_lowChar]
    simp [replSlash, hd]

theorem replSlash_ne_slash (c : Char) : ¬ replSlash c = '/' := by
  by_cases h : (c == '/') = true
  · simp [replSlash, h]
  · simp only [replSlash, h, if_false, Bool.false_eq_true]
    exact fun hc => h (by simp [hc])

/-- C8: `normalize_linear_id` (lowercase, then `/`→`-`) is idempotent, and
`DOC-123`, `doc-123`, `Doc-123` all normalize to `doc-123`. -/
theorem normalize_linear_id_spec :
    (∀ s : Str, normalize_linear_id (normalize_linear_id s) = normalize_linear_id s) ∧
    normalize_linear_id (("DOC-123").toList) = ("doc-123").toList ∧
    normalize_linear_id (("doc-123").toList) = ("doc-123").toList ∧
    normalize_linear_id (("Doc-123").toList) = ("doc-123").toList := by
  refine ⟨?_, by decide, by decide, by decide⟩
  intro s
  induction s with
  | nil => rfl
  | cons c cs ih =>
      simp only [normalize_linear_id, pyLower, List.map_cons] at ih ⊢
      rw [normChar_idem c]
      exact congrArg _ (by simpa [normalize_linear_id, pyLower] using ih)

/-- C9: the tmux session name is `{repo-name}-{identifier with / replaced
by -}`; it contains no path separator (the repository name, being a path
basename, contains none), and it is stable under equal inputs. -/
theorem generate_session_name_spec :
    (∀ r i : Str, generate_session_name r i = r ++ '-' :: i.map replSlash) ∧
    (∀ r i : Str, '/' ∉ r → '/' ∉ generate_session_name r i) ∧
    (∀ r i r2 i2 : Str, r = r2 → i = i2 →
      generate_session_name r i = generate_session_name r2 i2) := by
  refine ⟨fun r i => rfl, ?_, ?_⟩
  · intro r i hr hmem
    unfold generate_session_name at hmem
    rw [List.mem_append] at hmem
    rcases hmem with h | h
    · exact hr h
    · rw [List.mem_cons] at h
      rcases h with h | h
      · exact absurd h (by decide)
      · rw [List.mem_map] at h
        obtain ⟨c, -, hc⟩ := h
        exact replSlash_ne_slash c hc
  · intro r i r2 i2 hr hi
    rw [hr, hi]

/-- Witness for C9 at concrete inputs. -/
theorem generate_session_name_spec_witness :
    '/' ∉ generate_session_name (("repo").toList) (("feature/auth").toList) ∧
    generate_session_name (("repo").toList) (("feature/auth").toList) =
      ("repo-feature-auth").toList ∧
    generate_session_name (("vcluster-docs").toList) (("DOC-123").toList) =
      generate_session_name (("vcluster-docs").toList) (("DOC-123").toList) := by
  refine ⟨?_, by decide, ?_⟩
  · exact generate_session_name_spec.2.1 (("repo").toList) (("feature/auth").toList)
      (by decide)
  · exact generate_session_name_spec.2.2 (("vcluster-docs").toList) (("DOC-123").toList)
      (("vcluster-docs").toList) (("DOC-123").toList) rfl rfl

/-! ## Identifier classification is exclusive -/

theorem not_linear_of_pr {s : Str} (hp : is_pr_number s = true) :
    is_linear_issue s = false := by
  unfold is_pr_number at hp
  rw [Bool.or_eq_true, Bool.or_eq_true] at hp
  rcases hp with (hd | hpr) | hgh
  · rcases s with _ | ⟨c, cs⟩
    · exact absurd hd (by decide)
    · have hc : isDigitCh c = true := by
        simp only [allDigits1, Bool.and_eq_true, List.all_eq_true] at hd
        exact hd.2 c (by simp)
      have hl : isLetterCI c = false := digit_not_letter hc
      simp [is_linear_issue, matchesLinearPattern, List.takeWhile_cons, hl]
  · rcases s with _ | ⟨a, _ | ⟨b, _ | ⟨c3, ds⟩⟩⟩
    · exact absurd hpr (by decide)
    · exact absurd hpr (by simp [prDashDigits])
    · exact absurd hpr (by simp [prDashDigits])
    · simp only [prDashDigits, ciEq, Bool.and_eq_true, beq_iff_eq] at hpr
      obtain ⟨⟨⟨hP, hR⟩, hc3⟩, -⟩ := hpr
      have hPa : upChar a = 'P' := by rw [hP]; decide
      have hRb : upChar b = 'R' := by rw [hR]; decide
      subst hc3
      have hup : upStartsPR (a :: b :: '-' :: ds) = true := by
        simp [upStartsPR, pyUpper, strStarts, hPa, hRb,
          (show upChar '-' = '-' from by decide)]
      simp [is_linear_issue, hup]
  · unfold ghPullMatch at hgh
    rw [Bool.and_eq_true] at hgh
    obtain ⟨hci, -⟩ := hgh
    rcases s with _ | ⟨c1, _ | ⟨c2, _ | ⟨c3, _ | ⟨c4, _ | ⟨c5, _ | ⟨c6, r⟩⟩⟩⟩⟩⟩
    · simp [ciStarts, ghMark] at hci
    · simp [ciStarts, ghMark] at hci
    · simp [ciStarts, ghMark] at hci
    · simp [ciStarts, ghMark] at hci
    · simp [ciStarts, ghMark] at hci
    · simp [ciStarts, ghMark] at hci
    · simp only [ghMark, ciStarts, ciEq, Bool.and_eq_true, beq_iff_eq] at hci
      obtain ⟨h1, h2, h3, h4, h5, h6, -⟩ := hci
      have hl1 : isLetterCI c1 = true :=
        @isLetterCI_of_upChar c1 'H' (by decide) (by rw [← h1]; decide)
      have hl2 : isLetterCI c2 = true :=
        @isLetterCI_of_upChar c2 'T' (by decide) (by rw [← h2]; decide)
      have hl3 : isLetterCI c3 = true :=
        @isLetterCI_of_upChar c3 'T' (by decide) (by rw [← h3]; decide)
      have hl4 : isLetterCI c4 = true :=
        @isLetterCI_of_upChar c4 'P' (by decide) (by rw [← h4]; decide)
      have hl5 : isLetterCI c5 = true :=
        @isLetterCI_of_upChar c5 'S' (by decide) (by rw [← h5]; decide)
      have hc6 : c6 = ':' :=
        @upChar_eq_nonupper c6 ':' (by left; decide) (by rw [← h6]; decide)
      have hl6 : isLetterCI c6 = false := by rw [hc6]; decide
      simp [is_linear_issue, matchesLinearPattern, List.takeWhile_cons,
        hl1, hl2, hl3, hl4, hl5, hl6]

/-- C10: `is_linear_issue` and `is_pr_number` are never both true, so
`detect_identifier_type` yields exactly one of `linear`/`pr`/`custom`, and
every `PR-<digits>` string (any letter case) is classified `pr`. -/
theorem detect_identifier_type_spec :
    (∀ s : Str, ¬ (is_linear_issue s = true ∧ is_pr_number s = true)) ∧
    (∀ s : Str, detect_identifier_type s = ("linear").toList ∨
      detect_identifier_type s = ("pr").toList ∨
      detect_identifier_type s = ("custom").toList) ∧
    (∀ a b : Char, ∀ ds : Str, upChar a = 'P' → upChar b = 'R' → ds ≠ [] →
      (∀ c ∈ ds, isDigitCh c = true) →
      detect_identifier_type (a :: b :: '-' :: ds) = ("pr").toList) := by
  refine ⟨?_, ?_, ?_⟩
  · rintro s ⟨hl, hp⟩
    rw [not_linear_of_pr hp] at hl
    exact absurd hl (by decide)
  · intro s
    by_cases h1 : is_linear_issue s = true
    · left
      unfold detect_identifier_type
      rw [if_pos h1]
      rfl
    · by_cases h2 : is_pr_number s = true
      · right; left
        unfold detect_identifier_type
        rw [if_neg h1, if_pos h2]
        rfl
      · right; right
        unfold detect_identifier_type
        rw [if_neg h1, if_neg h2]
        rfl
  · intro a b ds hP hR hne hd
    have hup : upStartsPR (a :: b :: '-' :: ds) = true := by
      simp [upStartsPR, pyUpper, strStarts, hP, hR,
        (show upChar '-' = '-' from by decide)]
    have hlin : is_linear_issue (a :: b :: '-' :: ds) = false := by
      simp [is_linear_issue, hup]
    have hpr : is_pr_number (a :: b :: '-' :: ds) = true := by
      unfold is_pr_number
      rw [Bool.or_eq_true]
      left
      rw [Bool.or_eq_true]
      right
      simp [prDashDigits, ciEq, hP, hR, allDigits1_of hne hd,
        (show upChar 'P' = 'P' from by decide), (show upChar 'R' = 'R' from by decide)]
    unfold detect_identifier_type
    rw [if_neg (by simp [hlin]), if_pos hpr]
    rfl

/-- Witness for C10 at a concrete mixed-case `PR-` input. -/
theorem detect_identifier_type_spec_witness :
    detect_identifier_type ('p' :: 'R' :: '-' :: ("77").toList) = ("pr").toList := by
  exact detect_identifier_type_spec.2.2 'p' 'R' (("77").toList) (by decide) (by decide)
    (by decide) (by decide)

/-! ## Repository path resolution -/

theorem udaGet_ne_nil {d : Uda} {k v : Str} (h : udaGet d k = some v) : d ≠ [] := by
  intro hd
  rw [hd] at h
  simp [udaGet] at h

set_option maxRecDepth 16384 in
/-- C1: `resolve_repo_path` follows the fixed precedence: a given explicit
path always wins and is returned resolved; otherwise a present `repo_path`
field is returned resolved; otherwise a present `repo` short name raises an
error mentioning the short name; otherwise the version-control system is
asked for the repository root, and on failure a resolution error listing
the three remedies is raised. -/
theorem resolve_repo_path_spec :
    (∀ (env : ResolveEnv) (p : Str) (uda : Option Uda), p ≠ [] →
      resolve_repo_path env (some p) uda = .ok (env.resolvePath p)) ∧
    (∀ (env : ResolveEnv) (ep : Option Str) (d : Uda) (rp : Str),
      optTruthy ep = false → udaGet d repoPathKey = some rp → rp ≠ [] →
      resolve_repo_path env ep (some d) = .ok (env.resolvePath rp)) ∧
    (∀ (env : ResolveEnv) (ep : Option Str) (d : Uda) (nm : Str),
      optTruthy ep = false →
      (udaGet d repoPathKey = none ∨ udaGet d repoPathKey = some []) →
      udaGet d repoKey = some nm → nm ≠ [] →
      ∃ pre post, resolve_repo_path env ep (some d) = .error (pre ++ nm ++ post)) ∧
    (∀ (env : ResolveEnv) (ep : Option Str) (uda : Option Uda),
      optTruthy ep = false →
      (∀ d, uda = some d →
        (udaGet d repoPathKey = none ∨ udaGet d repoPathKey = some []) ∧
        (udaGet d repoKey = none ∨ udaGet d repoKey = some [])) →
      resolve_repo_path env ep uda = resolveFromCurrentDirectory env ∧
      (env.gitTop = none →
        resolve_repo_path env ep uda = .error (cannotDetermineMsg env.gitErr)) ∧
      (∀ out, env.gitTop = some out →
        resolve_repo_path env ep uda = .ok (pyStrip out))) ∧
    (∀ e : Str, ∃ pre mid1 mid2 post : Str,
      cannotDetermineMsg e =
        pre ++ ("Run from within a git repository").toList ++ mid1 ++
          ("Provide --repo-path flag").toList ++ mid2 ++
          ("Set 'repo_path' UDA field in taskwarrior").toList ++ post ++ e) := by
  refine ⟨?_, ?_, ?_, ?_, ?_⟩
  · intro env p uda hp
    unfold resolve_repo_path
    rw [if_pos (show optTruthy (some p) = true by simp [optTruthy, hp])]
    simp
  · intro env ep d rp hep hrp hrpne
    have hd : d ≠ [] := udaGet_ne_nil hrp
    unfold resolve_repo_path
    rw [if_neg (show ¬ optTruthy ep = true by rw [hep]; exact Bool.false_ne_true)]
    rw [if_pos (show (dictTruthy (some d) &&
        optTruthy (udaGet ((some d : Option Uda).getD []) repoPathKey)) = true by
      simp [dictTruthy, hd, hrp, optTruthy, hrpne])]
    simp [hrp]
  · intro env ep d nm hep hrp hnm hnmne
    have hd : d ≠ [] := udaGet_ne_nil hnm
    refine ⟨("Cannot resolve short name '").toList,
      ("'. Please set 'repo_path' UDA field with full path. Example: task ").toList ++
        nm ++ (" modify repo_path:/full/path/to/").toList ++ nm, ?_⟩
    unfold resolve_repo_path
    rw [if_neg (show ¬ optTruthy ep = true by rw [hep]; exact Bool.false_ne_true)]
    rw [if_neg (show ¬ (dictTruthy (some d) &&
        optTruthy (udaGet ((some d : Option Uda).getD []) repoPathKey)) = true by
      rcases hrp with h | h <;> simp [dictTruthy, hd, h, optTruthy])]
    rw [if_pos (show (dictTruthy (some d) &&
        optTruthy (udaGet ((some d : Option Uda).getD []) repoKey)) = true by
      simp [dictTruthy, hd, hnm, optTruthy, hnmne])]
    simp only [Option.getD_some]
    rw [hnm]
    simp [shortNameMsg, List.append_assoc]
  · intro env ep uda hep huda
    have hmain : resolve_repo_path env ep uda = resolveFromCurrentDirectory env := by
      unfold resolve_repo_path
      rw [if_neg (show ¬ optTruthy ep = true by rw [hep]; exact Bool.false_ne_true)]
      rw [if_neg (show ¬ (dictTruthy uda &&
          optTruthy (udaGet (uda.getD []) repoPathKey)) = true by
        rcases uda with _ | d
        · simp [dictTruthy]
        · rcases (huda d rfl).1 with h | h <;> simp [h, optTruthy])]
      rw [if_neg (show ¬ (dictTruthy uda &&
          optTruthy (udaGet (uda.getD []) repoKey)) = true by
        rcases uda with _ | d
        · simp [dictTruthy]
        · rcases (huda d rfl).2 with h | h <;> simp [h, optTruthy])]
    refine ⟨hmain, ?_, ?_⟩
    · intro hg
      rw [hmain]
      simp [resolveFromCurrentDirectory, hg]
    · intro out hg
      rw [hmain]
      simp [resolveFromCurrentDirectory, hg]
  · intro e
    refine ⟨("Cannot determine repository path. You must either:\n1. ").toList,
      (", OR\n2. ").toList, (", OR\n3. ").toList, ("\nError: ").toList, ?_⟩
    unfold cannotDetermineMsg
    rw [show ("Cannot determine repository path. You must either:\n1. Run from within a git repository, OR\n2. Provide --repo-path flag, OR\n3. Set 'repo_path' UDA field in taskwarrior\nError: ").toList =
      ("Cannot determine repository path. You must either:\n1. ").toList ++
        ("Run from within a git repository").toList ++ (", OR\n2. ").toList ++
        ("Provide --repo-path flag").toList ++ (", OR\n3. ").toList ++
        ("Set 'repo_path' UDA field in taskwarrior").toList ++ ("\nError: ").toList
      from by decide]

/-- Witness for C1: each precedence branch at concrete inputs. -/
theorem resolve_repo_path_spec_witness :
    resolve_repo_path ⟨fun s => '/' :: s, none, ("boom").toList⟩
        (some (("/x").toList)) (some [(repoKey, ("abc").toList)]) =
      .ok ('/' :: ("/x").toList) ∧
    resolve_repo_path ⟨fun s => '/' :: s, none, ("boom").toList⟩ none
        (some [(repoPathKey, ("/y").toList)]) =
      .ok ('/' :: ("/y").toList) ∧
    (∃ pre post,
      resolve_repo_path ⟨fun s => '/' :: s, none, ("boom").toList⟩ none
          (some [(repoKey, ("abc").toList)]) =
        .error (pre ++ ("abc").toList ++ post)) ∧
    resolve_repo_path ⟨fun s => '/' :: s, none, ("boom").toList⟩ none none =
      .error (cannotDetermineMsg (("boom").toList)) := by
  refine ⟨?_, ?_, ?_, ?_⟩
  · exact resolve_repo_path_spec.1 ⟨fun s => '/' :: s, none, ("boom").toList⟩
      (("/x").toList) (some [(repoKey, ("abc").toList)]) (by decide)
  · exact resolve_repo_path_spec.2.1 ⟨fun s => '/' :: s, none, ("boom").toList⟩ none
      [(repoPathKey, ("/y").toList)] (("/y").toList) (by decide) (by decide) (by decide)
  · exact resolve_repo_path_spec.2.2.1 ⟨fun s => '/' :: s, none, ("boom").toList⟩ none
      [(repoKey, ("abc").toList)] (("abc").toList) (by decide) (by decide) (by decide)
      (by decide)
  · exact (resolve_repo_path_spec.2.2.2.1 ⟨fun s => '/' :: s, none, ("boom").toList⟩
      none none (by decide) (fun d hd => by simp at hd)).2.1 rfl

/-! ## The porcelain worktree-list parser -/

theorem strStarts_wt_br (b : Str) : strStarts wtLineMark (brLineMark ++ b) = false := rfl

theorem parseLines_nil (acc : List WTRec) (cur : WTRec) :
    parseLines [] acc cur = if wtTruthy cur then acc ++ [cur] else acc := rfl

theorem parseLines_cons (l : Str) (ls : List Str) (acc : List WTRec) (cur : WTRec) :
    parseLines (l :: ls) acc cur =
      if strStarts wtLineMark l then
        parseLines ls (if wtTruthy cur then acc ++ [cur] else acc)
          ⟨some (l.drop 9), none⟩
      else if strStarts brLineMark l then
        parseLines ls acc ⟨cur.path, some (l.drop 7)⟩
      else parseLines ls acc cur := rfl

theorem parseLines_records :
    ∀ (rs : List PorcelainRec) (acc : List WTRec) (cur : WTRec),
      parseLines ((rs.map recLines).flatten) acc cur =
        (if wtTruthy cur then acc ++ [cur] else acc) ++ rs.map recWT := by
  intro rs
  induction rs with
  | nil => intro acc cur; simp [parseLines_nil]
  | cons r rs ih =>
      intro acc cur
      rcases r with ⟨p, br⟩
      have hdropP := List.drop_left wtLineMark p
      rw [show wtLineMark.length = 9 from rfl] at hdropP
      rcases br with _ | b
      · simp only [List.map_cons, List.flatten_cons, recLines, List.cons_append,
          List.nil_append]
        rw [parseLines_cons]
        rw [if_pos (strStarts_append_self wtLineMark p)]
        rw [hdropP, ih]
        simp [wtTruthy, recWT]
      · have hdropB := List.drop_left brLineMark b
        rw [show brLineMark.length = 7 from rfl] at hdropB
        simp only [List.map_cons, List.flatten_cons, recLines, List.cons_append,
          List.nil_append]
        rw [parseLines_cons]
        rw [if_pos (strStarts_append_self wtLineMark p)]
        rw [hdropP]
        rw [parseLines_cons]
        rw [if_neg (by rw [strStarts_wt_br b]; exact Bool.false_ne_true),
          if_pos (strStarts_append_self brLineMark b)]
        rw [hdropB, ih]
        simp [wtTruthy, recWT]

/-- C4: on porcelain output made of records that each begin with a
`worktree <path>` line optionally followed by a `branch <ref>` line, the
parser returns exactly one `{path, branch}` entry per record, with the text
after `worktree ` as path and the text after `branch ` as branch. -/
theorem parseWorktrees_spec :
    ∀ rs : List PorcelainRec,
      parseWorktrees ((rs.map recLines).flatten) = rs.map recWT := by
  intro rs
  unfold parseWorktrees
  rw [parseLines_records rs [] ⟨none, none⟩]
  simp [wtTruthy]

/-! ## Bulk clean is best-effort -/

theorem cleanWtIter_eq (removeExit : Str → Nat) (w : WTRec) :
    cleanWtIter removeExit w =
      .ok (if is_claude_wt_worktree w then
        [(wtGetPath w, decide (removeExit (wtGetPath w) = 0))] else []) := by
  unfold cleanWtIter
  by_cases hc : is_claude_wt_worktree w = true
  · rw [if_pos hc, if_pos hc]
    by_cases he : removeExit (wtGetPath w) = 0
    · rw [show runChecked (removeExit (wtGetPath w)) = .ok () from by
          simp [runChecked, he],
        show decide (removeExit (wtGetPath w) = 0) = true from by simp [he]]
      rfl
    · rw [show runChecked (removeExit (wtGetPath w)) = .error .calledProcessError from by
          simp [runChecked, he],
        show decide (removeExit (wtGetPath w) = 0) = false from by simp [he]]
      rfl
  · rw [if_neg hc, if_neg hc]
    rfl

theorem cleanWtPhase_eq (removeExit : Str → Nat) :
    ∀ ws : List WTRec,
      cleanWtPhase removeExit ws =
        .ok ((ws.filter is_claude_wt_worktree).map
          (fun w => (wtGetPath w, decide (removeExit (wtGetPath w) = 0)))) := by
  intro ws
  induction ws with
  | nil => rfl
  | cons w ws ih =>
      unfold cleanWtPhase
      rw [cleanWtIter_eq, ih]
      by_cases hc : is_claude_wt_worktree w = true
      · rw [if_pos hc]
        rw [show List.filter is_claude_wt_worktree (w :: ws) =
            w :: List.filter is_claude_wt_worktree ws from by
          simp [List.filter_cons, hc]]
        rfl
      · rw [if_neg hc]
        rw [show List.filter is_claude_wt_worktree (w :: ws) =
            List.filter is_claude_wt_worktree ws from by
          simp [List.filter_cons, hc]]
        rfl

theorem branchIter_eq (deleteExit : Str → Nat) (b : Str) :
    branchIter deleteExit b =
      .ok (if b.isEmpty then [] else [(b, decide (deleteExit b = 0))]) := by
  unfold branchIter
  by_cases hb : b.isEmpty = true
  · rw [if_pos hb, if_pos hb]
    rfl
  · rw [if_neg hb, if_neg hb]
    by_cases he : deleteExit b = 0
    · rw [show runChecked (deleteExit b) = .ok () from by simp [runChecked, he],
        show decide (deleteExit b = 0) = true from by simp [he]]
      rfl
    · rw [show runChecked (deleteExit b) = .error .calledProcessError from by
          simp [runChecked, he],
        show decide (deleteExit b = 0) = false from by simp [he]]
      rfl

theorem branchPhase_eq (deleteExit : Str → Nat) :
    ∀ bs : List Str,
      branchPhase deleteExit bs =
        .ok ((bs.filter (fun b => !b.isEmpty)).map
          (fun b => (b, decide (deleteExit b = 0)))) := by
  intro bs
  induction bs with
  | nil => rfl
  | cons b bs ih =>
      unfold branchPhase
      rw [branchIter_eq, ih]
      by_cases hb : b.isEmpty = true
      · rw [if_pos hb]
        rw [show List.filter (fun b => !b.isEmpty) (b :: bs) =
            List.filter (fun b : Str => !b.isEmpty) bs from by
          simp [List.filter_cons, hb]]
        rfl
      · rw [if_neg hb]
        rw [show List.filter (fun b => !b.isEmpty) (b :: bs) =
            b :: List.filter (fun b : Str => !b.isEmpty) bs from by
          simp [List.filter_cons, hb]]
        rfl

/-- C5: the bulk clean never aborts on a per-item failure: it attempts
removal of every matching claude-wt worktree and deletion of every listed
branch, each attempt succeeding exactly when its git command exits 0; in
the concrete three-worktree scenario where the second removal fails, the
third is still attempted and succeeds, with one failure and two successes
reported. -/
theorem clean_all_spec :
    (∀ env : CleanAllEnv,
      clean_all env = .ok (
        ((parseWorktrees env.wtLines).filter is_claude_wt_worktree).map
          (fun w => (wtGetPath w, decide (env.removeExit (wtGetPath w) = 0))),
        (env.branchList.filter (fun b => !b.isEmpty)).map
          (fun b => (b, decide (env.deleteExit b = 0))))) ∧
    clean_all scenarioCleanEnv = .ok (
      [(("/w/a").toList, true), (("/w/b").toList, false), (("/w/c").toList, true)],
      []) ∧
    List.countP (fun r => !r.2)
      [((("/w/a").toList : Str), true), (("/w/b").toList, false),
        (("/w/c").toList, true)] = 1 ∧
    List.countP (fun r => r.2)
      [((("/w/a").toList : Str), true), (("/w/b").toList, false),
        (("/w/c").toList, true)] = 2 := by
  refine ⟨?_, by rfl, by decide, by decide⟩
  intro env
  unfold clean_all
  rw [cleanWtPhase_eq, branchPhase_eq]
  rfl

/-! ## Cancelled picker -/

/-- C6: a non-zero picker exit is mapped to "no selection" rather than an
error, and with no selection both the switch command and the interactive
clean command exit with code 1 and perform no git mutation. -/
theorem cancelled_picker_spec :
    (∀ e : PyErr, select_worktree_fzf (.error e) = none) ∧
    (∀ (allWts : List FzfSel) (fzfRes : Except PyErr Str) (pathExists : Str → Bool),
      select_worktree_fzf fzfRes = none →
      switch_worktree allWts fzfRes pathExists = ⟨.exited 1, [], false⟩) ∧
    (∀ (allWts : List FzfSel) (fzfRes : Except PyErr Str)
        (pathExists : Str → Bool) (removeExit deleteExit : Str → Nat),
      select_worktree_fzf fzfRes = none →
      clean_worktrees_interactive allWts fzfRes pathExists removeExit deleteExit =
        ⟨.exited 1, [], false⟩) := by
  refine ⟨fun e => rfl, ?_, ?_⟩
  · intro allWts fzfRes pathExists hsel
    unfold switch_worktree
    by_cases h : allWts.isEmpty = true
    · rw [if_pos h]
    · rw [if_neg h, hsel]
  · intro allWts fzfRes pathExists removeExit deleteExit hsel
    unfold clean_worktrees_interactive
    by_cases h : allWts.isEmpty = true
    · rw [if_pos h]
    · rw [if_neg h, hsel]

/-- Witness for C6: a cancelled fzf at concrete inputs. -/
theorem cancelled_picker_spec_witness :
    select_worktree_fzf (.error .calledProcessError) = none ∧
    switch_worktree [⟨("/p").toList, ("r").toList, ("s").toList⟩]
        (.error .calledProcessError) (fun _ => true) = ⟨.exited 1, [], false⟩ ∧
    clean_worktrees_interactive [⟨("/p").toList, ("r").toList, ("s").toList⟩]
        (.error .calledProcessError) (fun _ => true) (fun _ => 0) (fun _ => 0) =
      ⟨.exited 1, [], false⟩ := by
  refine ⟨cancelled_picker_spec.1 .calledProcessError, ?_, ?_⟩
  · exact cancelled_picker_spec.2.1 _ _ _ rfl
  · exact cancelled_picker_spec.2.2 _ _ _ _ _ rfl

/-! ## The `--print-path` flag -/

/-- C7: with `--print-path` set (and the `.gitignore` check passing), the
`new` command writes exactly the resulting worktree path to stdout —
no other output — creates no tmux session, does not launch Claude, and
returns normally. -/
theorem print_path_spec (env : NewEnv) (name : Str) (hok : env.gitignoreOk = true) :
    (new_cmd env name true).stdout = [.pathLine (newWtPath env name)] ∧
    (new_cmd env name true).tmuxSession = false ∧
    (new_cmd env name true).claudeLaunched = false ∧
    (new_cmd env name true).outcome = .returned := by
  unfold new_cmd
  rw [hok]
  exact ⟨rfl, rfl, rfl, rfl⟩

/-- Witness for C7 at a concrete environment. -/
theorem print_path_spec_witness :
    (new_cmd ⟨("/h/p").toList, true, ("main").toList, ("t0").toList,
        (fun _ => false), (fun _ => false), false⟩ (("fix").toList) true).stdout =
      [.pathLine (newWtPath ⟨("/h/p").toList, true, ("main").toList, ("t0").toList,
        (fun _ => false), (fun _ => false), false⟩ (("fix").toList))] ∧
    (new_cmd ⟨("/h/p").toList, true, ("main").toList, ("t0").toList,
        (fun _ => false), (fun _ => false), false⟩ (("fix").toList) true).tmuxSession =
      false := by
  exact ⟨(print_path_spec _ _ rfl).1, (print_path_spec _ _ rfl).2.1⟩

end ClaudeWt
